import Mathlib

/-!
Verification development for `upload_files_to_gcp.py`, a CSV-to-BigQuery
ingestion script.  The pure data-manipulating parts of the script are
embedded shallowly: machine strings become `String`/`List Char`, the
CPython `float` type becomes an exact variant type over `ℚ` (the claims
settled here do not depend on IEEE rounding of values that fit in a
double; non-finite values and the overflow of huge literals, which the
claims do depend on, are modelled explicitly), and the effectful
BigQuery / Cloud-Storage calls become outcome oracles fed to the
orchestrator.  Exceptions are modelled with `Except`; a Python
`try/except` block becomes a `match` on the `Except` value.
-/

set_option maxRecDepth 4096
set_option exponentiation.threshold 2048

namespace UploadGcp

/-! ### Character-level model of the Python `str` methods used by the script

The script uses `str.isalnum`, `str.lower` and `str.split`.  `isalnum`
and `lower` are Unicode-aware in CPython; they are modelled here
faithfully for every code point below `0x100` (ASCII plus Latin-1,
which covers the Brazilian-Portuguese headers this repository ingests).
Code points at `0x100` and above are outside the modelled range: the
model treats them as non-alphanumeric and caseless.  Theorems that
depend on per-character behaviour carry the `< 0x100` hypothesis.
-/

/-- Model of Python `str.isalnum` on one character, faithful below `0x100`:
ASCII digits and letters, the Latin-1 ordinal indicators, superscripts,
micro sign and vulgar fractions, and the Latin-1 letters. -/
def py_isalnum (c : Char) : Bool :=
  decide ((0x30 ≤ c.toNat ∧ c.toNat ≤ 0x39) ∨
    (0x41 ≤ c.toNat ∧ c.toNat ≤ 0x5A) ∨
    (0x61 ≤ c.toNat ∧ c.toNat ≤ 0x7A) ∨
    c.toNat = 0xAA ∨ c.toNat = 0xB2 ∨ c.toNat = 0xB3 ∨ c.toNat = 0xB5 ∨
    c.toNat = 0xB9 ∨ c.toNat = 0xBA ∨
    (0xBC ≤ c.toNat ∧ c.toNat ≤ 0xBE) ∨
    (0xC0 ≤ c.toNat ∧ c.toNat ≤ 0xD6) ∨
    (0xD8 ≤ c.toNat ∧ c.toNat ≤ 0xF6) ∨
    (0xF8 ≤ c.toNat ∧ c.toNat ≤ 0xFF))

/-- Model of Python `str.lower` on one character, faithful below `0x100`:
the cased characters there are `A`-`Z`, `À`-`Ö` and `Ø`-`Þ`, each of
which lowercases by adding 32 (`ß` and `µ` are already lowercase and map
to themselves). -/
def py_lower_char (c : Char) : Char :=
  if (0x41 ≤ c.toNat ∧ c.toNat ≤ 0x5A) ∨
      (0xC0 ≤ c.toNat ∧ c.toNat ≤ 0xD6) ∨
      (0xD8 ≤ c.toNat ∧ c.toNat ≤ 0xDE) then
    Char.ofNat (c.toNat + 32)
  else c

/-- Model of Python `str.lower` on a whole string (character by
character; the length-changing lowerings of CPython all live above the
modelled `0x100` range). -/
def py_str_lower (s : String) : String :=
  String.mk (s.data.map py_lower_char)

/-- One character of the header-sanitizing generator expression at line 60
of the source: `c if c.isalnum() or c == '_' else '_'`. -/
def keepChar (c : Char) : Char :=
  if py_isalnum c || c = '_' then c else '_'

/-- The header sanitizer of `get_table_schema_from_csv` (lines 60 and 73):
`''.join(c if c.isalnum() or c == '_' else '_' for c in header).lower()`. -/
def sanitize (s : String) : String :=
  String.mk ((s.data.map keepChar).map py_lower_char)

/-! ### The BigQuery column types and schema fields -/

/-- The four type names `infer_column_type` can produce. -/
inductive ColType where
  | STRING
  | INTEGER
  | FLOAT
  | BOOLEAN
  deriving DecidableEq, Repr

/-- The only mode the script ever passes to `bigquery.SchemaField`. -/
inductive BQMode where
  | NULLABLE
  deriving DecidableEq, Repr

/-- A `bigquery.SchemaField(name, type, mode)` as constructed at line 84. -/
structure SchemaField where
  name : String
  type : ColType
  mode : BQMode
  deriving DecidableEq, Repr

/-! ### Model of CPython `float(str)` and `int(float)` -/

/-- The value of a CPython `float`: a finite value (kept exact, as the
signed decimal `(-1)^neg * sig * 10 ^ exp` the literal denotes; the
claims settled here never depend on IEEE rounding of in-range values),
an infinity, or a NaN. -/
inductive PyFloat where
  | finite (neg : Bool) (sig : ℕ) (exp : ℤ)
  | inf
  | neginf
  | nan
  deriving DecidableEq

/-- The two exception classes that matter to `infer_column_type`:
`float(str)` raises `ValueError` on an unparsable string, and
`int(float)` raises `OverflowError` on an infinity and `ValueError` on a
NaN. -/
inductive PyErr where
  | valueError
  | overflowError
  deriving DecidableEq, Repr

/-- ASCII decimal digit test. -/
def isAsciiDigit (c : Char) : Bool :=
  decide (0x30 ≤ c.toNat ∧ c.toNat ≤ 0x39)

/-- Numeric value of an ASCII digit character. -/
def digitVal (c : Char) : ℕ := c.toNat - 0x30

/-- Value of a big-endian list of ASCII digit characters. -/
def digitsToNat (l : List Char) : ℕ :=
  l.foldl (fun a c => 10 * a + digitVal c) 0

/-- The whitespace characters stripped by CPython float parsing
(ASCII portion). -/
def isPySpace (c : Char) : Bool :=
  c = ' ' || c = '\t' || c = '\n' || c = '\r' || c = '\x0b' || c = '\x0c'

/-- ASCII-only lowercasing used for the case-insensitive keyword match in
float parsing. -/
def asciiLower (c : Char) : Char :=
  if (0x41 ≤ c.toNat ∧ c.toNat ≤ 0x5A) then Char.ofNat (c.toNat + 32) else c

/-- Parse an unsigned decimal float literal `digits [. digits] [e [sign]
digits]` to the exact value it denotes, as a pair `(sig, exp)` with
value `sig * 10 ^ exp`, requiring at least one mantissa digit and no
trailing characters.  Returns `none` where CPython raises `ValueError`.
(The digit-group underscores CPython additionally accepts, and its
acceptance of non-ASCII Unicode decimal digits, are outside the
model.) -/
def parseDecimal (l : List Char) : Option (ℕ × ℤ) :=
  let ip := l.takeWhile isAsciiDigit
  let r1 := l.dropWhile isAsciiDigit
  let hasDot : Bool := match r1 with
    | '.' :: _ => true
    | _ => false
  let r2 := if hasDot then r1.tail else r1
  let fp := r2.takeWhile isAsciiDigit
  let r3 := r2.dropWhile isAsciiDigit
  if ip.length + fp.length = 0 then none
  else
    let sig : ℕ := digitsToNat (ip ++ fp)
    match r3 with
    | [] => some (sig, -(fp.length : ℤ))
    | e :: r4 =>
      if e = 'e' ∨ e = 'E' then
        let negE : Bool := match r4 with
          | '-' :: _ => true
          | _ => false
        let r5 : List Char := match r4 with
          | '+' :: t => t
          | '-' :: t => t
          | _ => r4
        let ed := r5.takeWhile isAsciiDigit
        let r6 := r5.dropWhile isAsciiDigit
        if ed.length = 0 ∨ r6.length ≠ 0 then none
        else
          let ex : ℤ := if negE then -(digitsToNat ed : ℤ) else (digitsToNat ed : ℤ)
          some (sig, ex - (fp.length : ℤ))
      else none

/-- Whether the exact value `sig * 10 ^ exp` of a finite decimal literal
overflows a double, making CPython `float(str)` return an infinity
(`1e400` is such a literal): the test `2 ^ 1024 ≤ sig * 10 ^ exp`
carried out in exact integer arithmetic.  The exact IEEE
round-to-nearest overflow boundary is marginally below `2 ^ 1024`; the
difference is invisible to decimal literals as short as the ones in
this development. -/
def decOverflows (sig : ℕ) (exp : ℤ) : Bool :=
  if 0 ≤ exp then decide (2 ^ 1024 ≤ sig * 10 ^ exp.toNat)
  else decide (2 ^ 1024 * 10 ^ (-exp).toNat ≤ sig)

/-- Whether the exact value `sig * 10 ^ exp` is an integer, which for a
finite double `x` is exactly the CPython test `x == int(x)`.  (CPython
values so tiny that they underflow to `0.0`, such as `1e-400`, are not
modelled and would diverge here; no claim depends on them.) -/
def decIntegral (sig : ℕ) (exp : ℤ) : Bool :=
  if 0 ≤ exp then true else decide (10 ^ (-exp).toNat ∣ sig)

/-- Model of CPython `float(str)`: strip whitespace, read an optional
sign, then either a case-insensitive `inf`/`infinity`/`nan` keyword or a
decimal literal; huge finite literals overflow to an infinity.  `none`
models `ValueError`. -/
def pyFloatOfString (s : String) : Option PyFloat :=
  let l0 := s.data.dropWhile isPySpace
  let l := (l0.reverse.dropWhile isPySpace).reverse
  let neg : Bool := match l with
    | '-' :: _ => true
    | _ => false
  let body : List Char := match l with
    | '+' :: t => t
    | '-' :: t => t
    | _ => l
  let lowBody := body.map asciiLower
  if lowBody = "inf".data ∨ lowBody = "infinity".data then
    some (if neg then PyFloat.neginf else PyFloat.inf)
  else if lowBody = "nan".data then some PyFloat.nan
  else
    match parseDecimal body with
    | none => none
    | some se =>
      if decOverflows se.1 se.2 then some (if neg then PyFloat.neginf else PyFloat.inf)
      else some (PyFloat.finite neg se.1 se.2)

instance {ε α : Type} [DecidableEq ε] [DecidableEq α] : DecidableEq (Except ε α) := fun a b =>
  match a, b with
  | Except.ok x, Except.ok y =>
    if h : x = y then isTrue (by rw [h]) else isFalse (by intro hc; cases hc; exact h rfl)
  | Except.error x, Except.error y =>
    if h : x = y then isTrue (by rw [h]) else isFalse (by intro hc; cases hc; exact h rfl)
  | Except.ok _, Except.error _ => isFalse (by intro hc; cases hc)
  | Except.error _, Except.ok _ => isFalse (by intro hc; cases hc)

/-- A value reaching `infer_column_type`: the CSV reader hands the
function strings, `None` and `bool` are the other cases its code
distinguishes. -/
inductive PyVal where
  | pynone
  | pybool (b : Bool)
  | pystr (s : String)
  deriving DecidableEq

/-- `infer_column_type` (source lines 29-47).  The two `try` blocks are
modelled by matching on the parse result: a `ValueError` from
`float(value)` is caught by both handlers and falls through to the
`STRING` fallback; a NaN makes `int(float(value))` raise `ValueError`,
caught, after which the second `try` succeeds and returns `FLOAT`; an
infinity makes `int(float(value))` raise `OverflowError`, which no
handler catches, so the exception escapes as `Except.error`. -/
def infer_column_type (value : PyVal) : Except PyErr ColType :=
  match value with
  | PyVal.pynone => Except.ok ColType.STRING
  | PyVal.pybool _ => Except.ok ColType.BOOLEAN
  | PyVal.pystr s =>
    if s = "" then Except.ok ColType.STRING
    else
      match pyFloatOfString s with
      | Option.none => Except.ok ColType.STRING
      | some (PyFloat.finite _ sig exp) =>
        if decIntegral sig exp then Except.ok ColType.INTEGER
        else Except.ok ColType.FLOAT
      | some PyFloat.inf => Except.error PyErr.overflowError
      | some PyFloat.neginf => Except.error PyErr.overflowError
      | some PyFloat.nan => Except.ok ColType.FLOAT

/-! ### The `columns_info` dict and `get_table_schema_from_csv`

`columns_info` is a Python dict from sanitized header to
`{'name': ..., 'type': ...}`; since the stored `name` always equals the
key, the dict is modelled as an association list of
`(identifier, ColType)` pairs.  Python dicts preserve the position of an
existing key on re-assignment and append new keys at the end; Python
dict iteration follows that order. -/

/-- Assignment `d[k] = v` on a Python dict modelled as an association
list: overwrite in place when the key is present, append otherwise. -/
def dictInsert (m : List (String × ColType)) (k : String) (v : ColType) :
    List (String × ColType) :=
  if m.any (fun p => p.1 = k) then
    m.map (fun p => if p.1 = k then (k, v) else p)
  else m ++ [(k, v)]

/-- Lookup `d[k]` on the modelled dict; `none` models `KeyError`. -/
def dictLookup (m : List (String × ColType)) (k : String) : Option ColType :=
  (m.find? (fun p => p.1 = k)).map (fun p => p.2)

/-- The header pass of `get_table_schema_from_csv` (lines 59-61): every
header is sanitized and bound to initial type `STRING`. -/
def initColumnsInfo (headers : List String) : List (String × ColType) :=
  headers.foldl (fun m h => dictInsert m (sanitize h) ColType.STRING) []

/-- The body of the inner inference loop (lines 71-80) for one cell:
positions at or past the header count are skipped; otherwise the current
type is read back from the dict, the type of the value is inferred, and
the two update branches fire as in the source.  `none` models an
exception escaping the loop into the catch-all handler: a `KeyError`
(provably unreachable) or an `OverflowError` from `infer_column_type`. -/
def updateCell (headers : List String) (m : List (String × ColType))
    (j : ℕ) (value : String) : Option (List (String × ColType)) :=
  if hj : j < headers.length then
    match dictLookup m (sanitize (headers.get ⟨j, hj⟩)) with
    | Option.none => none
    | some current_type =>
      match infer_column_type (PyVal.pystr value) with
      | Except.error _ => none
      | Except.ok inferred_type =>
        if inferred_type = ColType.STRING ∧ current_type ≠ ColType.STRING then
          some (dictInsert m (sanitize (headers.get ⟨j, hj⟩)) ColType.STRING)
        else if inferred_type = ColType.FLOAT ∧ current_type = ColType.INTEGER then
          some (dictInsert m (sanitize (headers.get ⟨j, hj⟩)) ColType.FLOAT)
        else some m
  else some m

/-- One row of the inference loop (line 70-71): the cells are visited
with their positions, threading the dict. -/
def updateRow (headers : List String) (m : List (String × ColType))
    (row : List String) : Option (List (String × ColType)) :=
  row.enum.foldlM (fun m' jv => updateCell headers m' jv.1 jv.2) m

/-- `get_table_schema_from_csv` (lines 49-89) given the parsed CSV
content: `headers` is the first row, `rows` the remaining ones, and
`num_rows_for_inference` the sampling limit (the caller at line 200 uses
the default 100).  Lines 63-68 keep only the first
`num_rows_for_inference` rows.  The `None` result models the catch-all
handler at lines 87-89 (reached from inside the loops only by an
exception from `updateCell`); the I/O and CSV-parse failures that also
land there are modelled by the caller handing `none` content to the
orchestrator. -/
def get_table_schema_from_csv (headers : List String) (rows : List (List String))
    (num_rows_for_inference : ℕ) : Option (List SchemaField) :=
  let columns_info := initColumnsInfo headers
  let rows_for_inference := rows.take num_rows_for_inference
  match rows_for_inference.foldlM (fun m row => updateRow headers m row) columns_info with
  | Option.none => Option.none
  | some m => some (m.map (fun p => { name := p.1, type := p.2, mode := BQMode.NULLABLE }))

/-! ### Naming resolution (lines 174-196)

`process_and_upload_csv_data` derives the table id and partition value
from the file base name.  Python `str.split(sep)` with a non-empty
separator splits on every non-overlapping occurrence, scanning left to
right; the membership test `sep in s` holds exactly when that split
produced at least two parts.  The split is implemented here directly
over character lists (structurally, with the list length as fuel). -/

/-- If `sep` is a prefix of `l`, return the remainder of `l`. -/
def stripPrefixOf (sep l : List Char) : Option (List Char) :=
  match sep, l with
  | [], r => some r
  | _ :: _, [] => Option.none
  | c :: cs, d :: ds => if c = d then stripPrefixOf cs ds else Option.none

/-- Worker for the split: at each position, either consume a separator
occurrence and start a new piece, or move one character into the current
piece.  Each step consumes at least one character of a non-empty `l`
when `sep` is non-empty, so `l.length + 1` fuel always suffices. -/
def splitOnFrom (sep : List Char) : ℕ → List Char → List Char → List (List Char)
  | 0, l, cur => [cur.reverse ++ l]
  | fuel + 1, l, cur =>
    match stripPrefixOf sep l with
    | some r => cur.reverse :: splitOnFrom sep fuel r []
    | Option.none =>
      match l with
      | [] => [cur.reverse]
      | c :: rest => splitOnFrom sep fuel rest (c :: cur)

/-- Python `s.split(sep)` for a non-empty separator.  (Python raises on
an empty separator; the script only ever splits on the marker, which is
non-empty, so that case is mapped to the identity split.) -/
def py_split (s sep : String) : List String :=
  match sep.data with
  | [] => [s]
  | _ :: _ => (splitOnFrom sep.data (s.data.length + 1) s.data []).map String.mk

/-- Join a list of strings with a separator between consecutive
elements, the inverse of the split on the pieces it produces. -/
def joinWith (sep : String) : List String → String
  | [] => ""
  | x :: xs => xs.foldl (fun acc y => acc ++ sep ++ y) x

/-- The filename marker. -/
def marker : String := "_DadosAbertos_"

/-- Outcome of the naming steps at lines 180-194. -/
inductive NamingOutcome where
  | noMarker
  | emptyTableId
  | emptyPartition
  | resolved (table_id : String) (partition_value : String)
  deriving DecidableEq, Repr

/-- The naming resolution of `process_and_upload_csv_data` on the base
name (lines 180-194): marker membership check, split on every
occurrence, `table_id = parts[0].lower()`, `partition_value = parts[1]`,
then the two emptiness checks. -/
def resolve_naming (base_name : String) : NamingOutcome :=
  let parts := py_split base_name marker
  if parts.length < 2 then NamingOutcome.noMarker
  else
    let table_id := py_str_lower (parts.getD 0 "")
    let partition_value := parts.getD 1 ""
    if table_id = "" then NamingOutcome.emptyTableId
    else if partition_value = "" then NamingOutcome.emptyPartition
    else NamingOutcome.resolved table_id partition_value

/-- Modelled from the spec (section 4.4 Naming Resolver), for comparison
with `resolve_naming`: split the base name on the FIRST occurrence of
the marker only, so the partition value is the entire suffix after that
occurrence, later occurrences preserved verbatim.  The suffix is
recovered from the full split by re-joining everything after the first
part with the marker. -/
def resolveIdentity_spec (base_name : String) : NamingOutcome :=
  let parts := py_split base_name marker
  if parts.length < 2 then NamingOutcome.noMarker
  else
    let table_id := py_str_lower (parts.getD 0 "")
    let partition_value := joinWith marker (parts.drop 1)
    if table_id = "" then NamingOutcome.emptyTableId
    else if partition_value = "" then NamingOutcome.emptyPartition
    else NamingOutcome.resolved table_id partition_value

/-! ### Provisioning (lines 91-123)

The BigQuery client calls are external; each is modelled by its
outcome.  A `get_dataset` / `get_table` probe either finds the entity,
raises `NotFound`, or raises some other exception; a create call either
succeeds or raises.  Crucially, in both `ensure` functions the create
call runs INSIDE the `except NotFound` handler, and an exception raised
inside one handler of a `try` statement is not caught by the sibling
handlers of that same statement, so a creation failure propagates to the
caller. -/

/-- Outcome of an existence probe (`get_dataset` / `get_table`). -/
inductive ProbeOutcome where
  | found
  | notFound
  | raisesOther
  deriving DecidableEq, Repr

/-- Outcome of a create call (`create_dataset` / `create_table`). -/
inductive CreateOutcome where
  | ok
  | raises
  deriving DecidableEq, Repr

/-- `ensure_bigquery_dataset_exists` (lines 91-102): no handler other
than `except NotFound`, so a non-`NotFound` probe failure and a creation
failure both escape as exceptions. -/
def ensure_bigquery_dataset_exists (probe : ProbeOutcome) (create : CreateOutcome) :
    Except Unit Unit :=
  match probe with
  | ProbeOutcome.found => Except.ok ()
  | ProbeOutcome.notFound =>
    match create with
    | CreateOutcome.ok => Except.ok ()
    | CreateOutcome.raises => Except.error ()
  | ProbeOutcome.raisesOther => Except.error ()

/-- `ensure_bigquery_table_exists` (lines 104-123): a found probe returns
`True`; a `NotFound` probe enters the handler and creates the table,
returning `True` on success but PROPAGATING the exception when the
create call raises (the sibling `except Exception` clause does not catch
exceptions raised inside the `except NotFound` handler); any other probe
failure is caught by `except Exception` and returns `False`. -/
def ensure_bigquery_table_exists (probe : ProbeOutcome) (create : CreateOutcome) :
    Except Unit Bool :=
  match probe with
  | ProbeOutcome.found => Except.ok true
  | ProbeOutcome.notFound =>
    match create with
    | CreateOutcome.ok => Except.ok true
    | CreateOutcome.raises => Except.error ()
  | ProbeOutcome.raisesOther => Except.ok false

/-! ### The per-file orchestrator (lines 170-218) -/

/-- The milestone a step of `process_and_upload_csv_data` reaches, in the
order of the source. -/
inductive Step where
  | namingResolved
  | datasetEnsured
  | schemaInferred
  | tableEnsured
  | staged
  | loaded
  deriving DecidableEq, Repr

/-- The full success trace, in source order. -/
def stepOrder : List Step :=
  [Step.namingResolved, Step.datasetEnsured, Step.schemaInferred,
   Step.tableEnsured, Step.staged, Step.loaded]

/-- The terminal report printed for one file. -/
inductive Report where
  | skippedNotCsv
  | skippedNoMarker
  | skippedEmptyTableId
  | skippedEmptyPartition
  | schemaInferenceFailed
  | tableEnsureFailed
  | stagingFailed
  | loadFailed
  | unexpectedError
  | loaded
  deriving DecidableEq, Repr

/-- The outcomes of the external GCP calls made while processing one
file.  `upload` models `upload_csv_to_gcs` (lines 125-137), which either
returns a GCS URI or raises; `load` models `load_gcs_csv_to_bigquery`
(lines 139-168), which returns `True` or `False` from its own
`try/except` around `load_job.result()`, but whose
`load_table_from_uri` call at line 156 sits outside that `try` and can
raise. -/
structure GcpEnv where
  dataset_probe : ProbeOutcome
  dataset_create : CreateOutcome
  table_probe : ProbeOutcome
  table_create : CreateOutcome
  upload : Except Unit String
  load : Except Unit Bool

/-- One file as the orchestrator sees it: the pieces of
`os.path.splitext(os.path.basename(file_path))`, the parsed CSV content
(`none` when opening or parsing the file fails, which
`get_table_schema_from_csv` turns into a `None` schema), and the
external-call outcomes. -/
structure FileInput where
  base_name : String
  extension : String
  content : Option (List String × List (List String))
  env : GcpEnv

/-- `process_and_upload_csv_data` (lines 170-218), returning the list of
milestones reached and the terminal report.  The `try` at line 184
covers everything from the split onward: any modelled exception
(`Except.error` from a GCP call) lands in the catch-all at lines 217-218
as `unexpectedError` and nothing propagates to the caller.  The schema
check at line 201 is a Python truthiness test, so both `None` and an
empty schema list fail it. -/
def process_and_upload_csv_data (f : FileInput) : List Step × Report :=
  if py_str_lower f.extension ≠ ".csv" then ([], Report.skippedNotCsv)
  else
    match resolve_naming f.base_name with
    | NamingOutcome.noMarker => ([], Report.skippedNoMarker)
    | NamingOutcome.emptyTableId => ([], Report.skippedEmptyTableId)
    | NamingOutcome.emptyPartition => ([], Report.skippedEmptyPartition)
    | NamingOutcome.resolved _ _ =>
      match ensure_bigquery_dataset_exists f.env.dataset_probe f.env.dataset_create with
      | Except.error _ => ([Step.namingResolved], Report.unexpectedError)
      | Except.ok _ =>
        match f.content.bind (fun c => get_table_schema_from_csv c.1 c.2 100) with
        | Option.none =>
          ([Step.namingResolved, Step.datasetEnsured], Report.schemaInferenceFailed)
        | some [] =>
          ([Step.namingResolved, Step.datasetEnsured], Report.schemaInferenceFailed)
        | some (_ :: _) =>
          match ensure_bigquery_table_exists f.env.table_probe f.env.table_create with
          | Except.error _ =>
            ([Step.namingResolved, Step.datasetEnsured, Step.schemaInferred],
             Report.unexpectedError)
          | Except.ok false =>
            ([Step.namingResolved, Step.datasetEnsured, Step.schemaInferred],
             Report.tableEnsureFailed)
          | Except.ok true =>
            match f.env.upload with
            | Except.error _ =>
              ([Step.namingResolved, Step.datasetEnsured, Step.schemaInferred,
                Step.tableEnsured], Report.unexpectedError)
            | Except.ok gcs_uri =>
              if gcs_uri = "" then
                ([Step.namingResolved, Step.datasetEnsured, Step.schemaInferred,
                  Step.tableEnsured], Report.stagingFailed)
              else
                match f.env.load with
                | Except.error _ =>
                  ([Step.namingResolved, Step.datasetEnsured, Step.schemaInferred,
                    Step.tableEnsured, Step.staged], Report.unexpectedError)
                | Except.ok false =>
                  ([Step.namingResolved, Step.datasetEnsured, Step.schemaInferred,
                    Step.tableEnsured, Step.staged], Report.loadFailed)
                | Except.ok true =>
                  ([Step.namingResolved, Step.datasetEnsured, Step.schemaInferred,
                    Step.tableEnsured, Step.staged, Step.loaded], Report.loaded)

/-! ### The directory walker (lines 221-242) -/

/-- One entry of `os.listdir`: its name, whether `os.path.isfile` holds,
and, for regular files, the `FileInput` the orchestrator will see. -/
structure DirEntry where
  name : String
  is_file : Bool
  file : FileInput

/-- `process_directory` (lines 221-242): `none` models the early return
on an invalid directory; otherwise every regular entry is handed to
`process_and_upload_csv_data` and counted, and the per-file reports plus
the final attempted-files count are returned. -/
def process_directory (is_dir : Bool) (entries : List DirEntry) :
    Option (List (String × Report) × ℕ) :=
  if is_dir = false then Option.none
  else some (entries.foldl
    (fun acc e =>
      if e.is_file then
        (acc.1 ++ [(e.name, (process_and_upload_csv_data e.file).2)], acc.2 + 1)
      else acc)
    ([], 0))

/-! ### Definitions written from the spec, for comparison -/

/-- Modelled from the spec (sections 3 and 8): the widening lattice join
on column types, with `INTEGER < FLOAT < STRING` and `STRING`
absorbing; `BOOLEAN` is an incomparable leaf, so a mixed join with it
falls to the top. -/
def specJoin (a b : ColType) : ColType :=
  match a, b with
  | ColType.STRING, _ => ColType.STRING
  | _, ColType.STRING => ColType.STRING
  | ColType.BOOLEAN, ColType.BOOLEAN => ColType.BOOLEAN
  | ColType.BOOLEAN, _ => ColType.STRING
  | _, ColType.BOOLEAN => ColType.STRING
  | ColType.FLOAT, _ => ColType.FLOAT
  | _, ColType.FLOAT => ColType.FLOAT
  | ColType.INTEGER, ColType.INTEGER => ColType.INTEGER

/-- Join of a starting type with a list of observed types. -/
def specJoinAll (t0 : ColType) (ts : List ColType) : ColType :=
  ts.foldl specJoin t0

/-- First-seen deduplication, the key order of a Python dict built by
repeated assignment: the accumulator keeps the position of the first
occurrence of each key. -/
def firstSeenKeys (l : List String) : List String :=
  l.foldl (fun acc k => if k ∈ acc then acc else acc ++ [k]) []

/-- The inputs on which `infer_column_type` reaches the uncaught
`OverflowError`: strings whose `float` parse yields an infinity. -/
def parsesToInfinity (v : PyVal) : Bool :=
  match v with
  | PyVal.pystr s =>
    match pyFloatOfString s with
    | some PyFloat.inf => true
    | some PyFloat.neginf => true
    | _ => false
  | _ => false

/-! ## Helper lemmas -/

/-- `Char.ofNat` below the surrogate range decodes to the same code
point. -/
lemma char_toNat_ofNat (n : ℕ) (h : n < 0xD800) : (Char.ofNat n).toNat = n := by
  have hv : n.isValidChar := Or.inl h
  rw [Char.ofNat, dif_pos hv]
  rfl

/-- The modelled `str.lower` is idempotent on characters: its outputs are
never in a cased-uppercase range. -/
lemma py_lower_char_idem (c : Char) :
    py_lower_char (py_lower_char c) = py_lower_char c := by
  by_cases h : (0x41 ≤ c.toNat ∧ c.toNat ≤ 0x5A) ∨
      (0xC0 ≤ c.toNat ∧ c.toNat ≤ 0xD6) ∨
      (0xD8 ≤ c.toNat ∧ c.toNat ≤ 0xDE)
  · have hv : (Char.ofNat (c.toNat + 32)).toNat = c.toNat + 32 :=
      char_toNat_ofNat _ (by omega)
    have hin : py_lower_char c = Char.ofNat (c.toNat + 32) := by
      rw [py_lower_char, if_pos h]
    rw [hin, py_lower_char, if_neg (by rw [hv]; omega)]
  · simp only [py_lower_char, if_neg h]

/-- The modelled `str.lower` maps alphanumeric characters to alphanumeric
characters. -/
lemma py_isalnum_py_lower_char (c : Char) (h : py_isalnum c = true) :
    py_isalnum (py_lower_char c) = true := by
  rw [py_isalnum, decide_eq_true_eq] at h
  rw [py_lower_char]
  split
  · rename_i hc
    have hv : (Char.ofNat (c.toNat + 32)).toNat = c.toNat + 32 :=
      char_toNat_ofNat _ (by omega)
    rw [py_isalnum, decide_eq_true_eq, hv]
    omega
  · rw [py_isalnum, decide_eq_true_eq]
    exact h

/-- A character produced by one sanitizing pass is kept verbatim by the
next pass: it is alphanumeric-or-underscore and already lowercase. -/
lemma keepChar_py_lower_char_keepChar (c : Char) :
    keepChar (py_lower_char (keepChar c)) = py_lower_char (keepChar c) := by
  by_cases ha : py_isalnum c = true
  · have h1 : keepChar c = c := by rw [keepChar, ha]; rfl
    rw [h1, keepChar, py_isalnum_py_lower_char c ha]
    rfl
  · by_cases hu : c = '_'
    · subst hu
      decide
    · have h1 : keepChar c = '_' := by
        rw [keepChar]
        have : (py_isalnum c || decide (c = '_')) = false := by
          simp [ha, hu]
        rw [this]
        rfl
      rw [h1]
      decide

/-- The per-character composition of one full sanitizing pass, applied
twice, equals one pass. -/
lemma sanitize_char_idem (c : Char) :
    py_lower_char (keepChar (py_lower_char (keepChar c))) =
      py_lower_char (keepChar c) := by
  rw [keepChar_py_lower_char_keepChar, py_lower_char_idem]

/-! ## C7: the header sanitizer -/

/-- C7 counterexample: the claim says the sanitizer output never leaves
`[a-z0-9_]`, but the sanitizer keeps any character Python `isalnum`
accepts and only lowercases it, so the Latin-1 header character `É`
(common in the Portuguese headers this repository ingests) survives as
`é`, which is outside `[a-z0-9_]`. -/
theorem C7_counterexample :
    sanitize "É" = "é" ∧
    ¬(∀ c ∈ (sanitize "É").data,
        ('a' ≤ c ∧ c ≤ 'z') ∨ ('0' ≤ c ∧ c ≤ '9') ∨ c = '_') := by
  constructor
  · decide
  · decide

/-- C7 (amended): on the faithfully modelled character range (code
points below `0x100`), the sanitizer is idempotent and every output
character is lowercase (fixed by `str.lower`) and alphanumeric or
underscore — but not necessarily inside ASCII `[a-z0-9_]`. -/
theorem C7_sanitize_idempotent_lowercase (s : String)
    (h : ∀ c ∈ s.data, c.toNat < 0x100) :
    sanitize (sanitize s) = sanitize s ∧
    ∀ c ∈ (sanitize s).data,
      (py_isalnum c = true ∨ c = '_') ∧ py_lower_char c = c := by
  constructor
  · show String.mk _ = String.mk _
    simp only [sanitize, List.map_map]
    congr 1
    have hfun : py_lower_char ∘ keepChar ∘ py_lower_char ∘ keepChar =
        py_lower_char ∘ keepChar := by
      funext c
      simp only [Function.comp_apply]
      exact sanitize_char_idem c
    rw [hfun]
  · intro c hc
    simp only [sanitize, List.map_map, List.mem_map] at hc
    obtain ⟨d, _, rfl⟩ := hc
    refine ⟨?_, py_lower_char_idem _⟩
    by_cases ha : py_isalnum d = true
    · left
      have h1 : keepChar d = d := by rw [keepChar, ha]; rfl
      rw [Function.comp_apply, h1]
      exact py_isalnum_py_lower_char d ha
    · by_cases hu : d = '_'
      · right
        subst hu
        decide
      · right
        have h1 : keepChar d = '_' := by
          rw [keepChar]
          have : (py_isalnum d || decide (d = '_')) = false := by simp [ha, hu]
          rw [this]
          rfl
        rw [Function.comp_apply, h1]
        decide

/-- C7 witness: the amended theorem applied to a concrete raw header. -/
theorem C7_witness :
    sanitize (sanitize "Data (MM/DD)") = sanitize "Data (MM/DD)" ∧
    ∀ c ∈ (sanitize "Data (MM/DD)").data,
      (py_isalnum c = true ∨ c = '_') ∧ py_lower_char c = c :=
  C7_sanitize_idempotent_lowercase "Data (MM/DD)" (by decide)

/-! ## Dict and schema lemmas -/

/-- The `any`-based membership test of `dictInsert` agrees with key
membership. -/
lemma any_key_iff (m : List (String × ColType)) (k : String) :
    m.any (fun p => p.1 = k) = true ↔ k ∈ m.map Prod.fst := by
  rw [List.any_eq_true, List.mem_map]
  constructor
  · rintro ⟨p, hp, he⟩
    exact ⟨p, hp, of_decide_eq_true he⟩
  · rintro ⟨p, hp, he⟩
    exact ⟨p, hp, decide_eq_true he⟩

/-- Keys after a dict assignment: unchanged when the key was present,
the key appended otherwise. -/
lemma dictInsert_keys (m : List (String × ColType)) (k : String) (v : ColType) :
    (dictInsert m k v).map Prod.fst =
      if k ∈ m.map Prod.fst then m.map Prod.fst else m.map Prod.fst ++ [k] := by
  rw [dictInsert]
  by_cases h : k ∈ m.map Prod.fst
  · rw [if_pos ((any_key_iff m k).mpr h), if_pos h, List.map_map]
    have : (Prod.fst ∘ fun p : String × ColType => if p.1 = k then (k, v) else p) =
        Prod.fst := by
      funext p
      simp only [Function.comp_apply]
      split
      · rename_i hp
        exact hp.symm
      · rfl
    rw [this]
  · rw [if_neg (fun hc => h ((any_key_iff m k).mp hc)), if_neg h]
    simp

/-- A dict assignment keeps the key set duplicate-free. -/
lemma dictInsert_nodup (m : List (String × ColType)) (k : String) (v : ColType)
    (h : (m.map Prod.fst).Nodup) : ((dictInsert m k v).map Prod.fst).Nodup := by
  rw [dictInsert_keys]
  split
  · exact h
  · rename_i hk
    simp [List.nodup_append, h, hk]

/-- A dict assignment of `STRING` preserves the all-`STRING` value
invariant. -/
lemma dictInsert_string_vals (m : List (String × ColType)) (k : String)
    (h : ∀ p ∈ m, p.2 = ColType.STRING) :
    ∀ p ∈ dictInsert m k ColType.STRING, p.2 = ColType.STRING := by
  intro p hp
  rw [dictInsert] at hp
  split at hp
  · rw [List.mem_map] at hp
    obtain ⟨q, hq, rfl⟩ := hp
    split
    · rfl
    · exact h q hq
  · rw [List.mem_append] at hp
    rcases hp with hp | hp
    · exact h p hp
    · simp only [List.mem_singleton] at hp
      rw [hp]

/-- Membership in the key set survives any dict assignment. -/
lemma mem_keys_dictInsert (m : List (String × ColType)) (k k' : String) (v : ColType)
    (h : k' ∈ m.map Prod.fst) : k' ∈ (dictInsert m k v).map Prod.fst := by
  rw [dictInsert_keys]
  split
  · exact h
  · exact List.mem_append_left _ h

/-- The assigned key is in the key set after a dict assignment. -/
lemma mem_keys_dictInsert_self (m : List (String × ColType)) (k : String) (v : ColType) :
    k ∈ (dictInsert m k v).map Prod.fst := by
  rw [dictInsert_keys]
  split
  · assumption
  · exact List.mem_append_right _ (by simp)

/-- All values in the header-pass dict are `STRING`, for any starting
accumulator with that property. -/
lemma headerFold_vals (headers : List String) (m0 : List (String × ColType))
    (h0 : ∀ p ∈ m0, p.2 = ColType.STRING) :
    ∀ p ∈ headers.foldl (fun m h => dictInsert m (sanitize h) ColType.STRING) m0,
      p.2 = ColType.STRING := by
  induction headers generalizing m0 with
  | nil => exact h0
  | cons x xs ih =>
    exact ih _ (dictInsert_string_vals _ _ h0)

/-- Key membership survives the whole header pass. -/
lemma headerFold_keys_mono (headers : List String) (m0 : List (String × ColType))
    (k : String) (h0 : k ∈ m0.map Prod.fst) :
    k ∈ (headers.foldl (fun m h => dictInsert m (sanitize h) ColType.STRING) m0).map
      Prod.fst := by
  induction headers generalizing m0 with
  | nil => exact h0
  | cons x xs ih =>
    exact ih _ (mem_keys_dictInsert _ _ _ _ h0)

/-- Every sanitized header is a key of the header-pass dict. -/
lemma headerFold_keys_complete (headers : List String) (m0 : List (String × ColType)) :
    ∀ h ∈ headers,
      sanitize h ∈
        (headers.foldl (fun m h => dictInsert m (sanitize h) ColType.STRING) m0).map
          Prod.fst := by
  induction headers generalizing m0 with
  | nil => intro h hh; cases hh
  | cons x xs ih =>
    intro h hh
    rcases List.mem_cons.mp hh with rfl | hh
    · exact headerFold_keys_mono xs _ _ (mem_keys_dictInsert_self m0 (sanitize h) _)
    · exact ih _ h hh

/-- All values of `initColumnsInfo` are `STRING`. -/
lemma initColumnsInfo_vals (headers : List String) :
    ∀ p ∈ initColumnsInfo headers, p.2 = ColType.STRING :=
  headerFold_vals headers [] (by intro p hp; cases hp)

/-- Every sanitized header is a key of `initColumnsInfo`. -/
lemma initColumnsInfo_keys_complete (headers : List String) :
    ∀ h ∈ headers, sanitize h ∈ (initColumnsInfo headers).map Prod.fst :=
  headerFold_keys_complete headers []

/-- Looking up a present key in an all-`STRING` dict yields `STRING`. -/
lemma dictLookup_string (m : List (String × ColType)) (k : String)
    (hv : ∀ p ∈ m, p.2 = ColType.STRING) (hk : k ∈ m.map Prod.fst) :
    dictLookup m k = some ColType.STRING := by
  induction m with
  | nil => cases hk
  | cons p t ih =>
    rw [dictLookup]
    by_cases h : p.1 = k
    · rw [List.find?_cons_of_pos _ (by simp [h])]
      simp [hv p (by simp)]
    · rw [List.find?_cons_of_neg _ (by simp [h])]
      have hk' : k ∈ t.map Prod.fst := by
        rw [List.map_cons, List.mem_cons] at hk
        rcases hk with h1 | h1
        · exact absurd h1.symm h
        · exact h1
      exact ih (fun q hq => hv q (List.mem_cons_of_mem _ hq)) hk'

/-- On an all-`STRING` dict covering the headers, one cell update either
leaves the dict untouched (neither source branch can fire from current
type `STRING`) or aborts with the `OverflowError` escaping
`infer_column_type`. -/
lemma updateCell_inert (headers : List String) (m : List (String × ColType))
    (j : ℕ) (v : String)
    (hv : ∀ p ∈ m, p.2 = ColType.STRING)
    (hk : ∀ h ∈ headers, sanitize h ∈ m.map Prod.fst) :
    updateCell headers m j v = some m ∨ updateCell headers m j v = Option.none := by
  rw [updateCell]
  split
  · rename_i hj
    rw [dictLookup_string m _ hv (hk _ (headers.get_mem j hj))]
    cases hi : infer_column_type (PyVal.pystr v) with
    | error e => right; rfl
    | ok t =>
      left
      simp
  · left; rfl

/-- An `Option`-monad fold whose every step either keeps the accumulator
or aborts, itself either keeps the accumulator or aborts. -/
lemma foldlM_option_const {α β : Type} (f : β → α → Option β) (m : β) (l : List α)
    (H : ∀ x ∈ l, f m x = some m ∨ f m x = Option.none) :
    l.foldlM f m = some m ∨ l.foldlM f m = Option.none := by
  induction l with
  | nil => left; rfl
  | cons x xs ih =>
    rcases H x (by simp) with h | h
    · have hrest := ih (fun y hy => H y (List.mem_cons_of_mem _ hy))
      rcases hrest with h' | h'
      · left
        show (f m x).bind _ = _
        rw [h]
        exact h'
      · right
        show (f m x).bind _ = _
        rw [h]
        exact h'
    · right
      show (f m x).bind _ = _
      rw [h]
      rfl

/-- A row update on an all-`STRING` dict covering the headers keeps the
dict or aborts. -/
lemma updateRow_inert (headers : List String) (m : List (String × ColType))
    (row : List String)
    (hv : ∀ p ∈ m, p.2 = ColType.STRING)
    (hk : ∀ h ∈ headers, sanitize h ∈ m.map Prod.fst) :
    updateRow headers m row = some m ∨ updateRow headers m row = Option.none := by
  rw [updateRow]
  exact foldlM_option_const _ _ _
    (fun jv _ => updateCell_inert headers m jv.1 jv.2 hv hk)

/-- `get_table_schema_from_csv` either fails or returns exactly the
header-pass dict turned into `STRING`/`NULLABLE` fields: the inference
loop never changes the dict. -/
lemma get_table_schema_cases (headers : List String) (rows : List (List String))
    (n : ℕ) :
    get_table_schema_from_csv headers rows n = Option.none ∨
    get_table_schema_from_csv headers rows n =
      some ((initColumnsInfo headers).map
        (fun p => { name := p.1, type := p.2, mode := BQMode.NULLABLE })) := by
  have hv := initColumnsInfo_vals headers
  have hk := initColumnsInfo_keys_complete headers
  have hfold := foldlM_option_const (fun m row => updateRow headers m row)
    (initColumnsInfo headers) (rows.take n)
    (fun row _ => updateRow_inert headers _ row hv hk)
  rw [get_table_schema_from_csv]
  rcases hfold with h | h
  · right
    rw [h]
  · left
    rw [h]

/-- Any schema the function does return is the header-pass dict mapped to
fields. -/
lemma schema_eq_init (headers : List String) (rows : List (List String)) (n : ℕ)
    (schema : List SchemaField)
    (h : get_table_schema_from_csv headers rows n = some schema) :
    schema = (initColumnsInfo headers).map
      (fun p => { name := p.1, type := p.2, mode := BQMode.NULLABLE }) := by
  rcases get_table_schema_cases headers rows n with h' | h'
  · rw [h] at h'
    cases h'
  · rw [h] at h'
    exact Option.some.inj h'

/-- `STRING` absorbs any further joins in the spec lattice. -/
lemma specJoinAll_string (ts : List ColType) :
    specJoinAll ColType.STRING ts = ColType.STRING := by
  induction ts with
  | nil => rfl
  | cons t ts ih =>
    rw [specJoinAll] at ih ⊢
    simpa [specJoin] using ih

/-- The key list of the header pass is the first-seen deduplication of
the sanitized headers, relative to any starting accumulator. -/
lemma headerFold_keys (headers : List String) (m0 : List (String × ColType)) :
    (headers.foldl (fun m h => dictInsert m (sanitize h) ColType.STRING) m0).map
        Prod.fst =
      headers.foldl
        (fun acc h => if sanitize h ∈ acc then acc else acc ++ [sanitize h])
        (m0.map Prod.fst) := by
  induction headers generalizing m0 with
  | nil => rfl
  | cons x xs ih =>
    rw [List.foldl_cons, List.foldl_cons, ih, dictInsert_keys]

/-- The header pass keeps the key set duplicate-free. -/
lemma headerFold_nodup (headers : List String) (m0 : List (String × ColType))
    (h0 : (m0.map Prod.fst).Nodup) :
    ((headers.foldl (fun m h => dictInsert m (sanitize h) ColType.STRING) m0).map
      Prod.fst).Nodup := by
  induction headers generalizing m0 with
  | nil => exact h0
  | cons x xs ih =>
    exact ih _ (dictInsert_nodup _ _ _ h0)

/-- The keys of `initColumnsInfo` are the sanitized headers, first-seen
deduplicated, in order. -/
lemma initColumnsInfo_keys (headers : List String) :
    (initColumnsInfo headers).map Prod.fst = firstSeenKeys (headers.map sanitize) := by
  rw [initColumnsInfo, headerFold_keys, firstSeenKeys, List.foldl_map]
  rfl

/-- The keys of `initColumnsInfo` are duplicate-free. -/
lemma initColumnsInfo_nodup (headers : List String) :
    ((initColumnsInfo headers).map Prod.fst).Nodup :=
  headerFold_nodup headers [] List.nodup_nil

/-! ## C1: final column type versus the lattice join of the sampled values -/

/-- C1 counterexample: the single-column file with one sampled value
`"5"` has inferred value types `[INTEGER]` with lattice join `INTEGER`,
but the function returns final type `STRING`, so the final type is NOT
the join of the sampled values' inferred types. -/
theorem C1_counterexample :
    get_table_schema_from_csv ["a"] [["5"]] 100 =
      some [{ name := "a", type := ColType.STRING, mode := BQMode.NULLABLE }] ∧
    infer_column_type (PyVal.pystr "5") = Except.ok ColType.INTEGER ∧
    specJoinAll ColType.INTEGER [] = ColType.INTEGER ∧
    ColType.STRING ≠ ColType.INTEGER := by
  refine ⟨by decide, by decide, by decide, by decide⟩

/-- C1 (amended): the final type of every column equals the lattice join
of the column's INITIAL type `STRING` with the inferred types of the
sampled values — whatever those are, and in whatever order — because
`STRING` absorbs every join and the code, starting every column at
`STRING`, never leaves it.  Row order is trivially irrelevant. -/
theorem C1_final_type_join_with_initial_string (headers : List String)
    (rows : List (List String)) (n : ℕ) (schema : List SchemaField)
    (h : get_table_schema_from_csv headers rows n = some schema)
    (f : SchemaField) (hf : f ∈ schema) (ts : List ColType) :
    f.type = specJoinAll ColType.STRING ts := by
  rw [specJoinAll_string]
  have he := schema_eq_init headers rows n schema h
  subst he
  rw [List.mem_map] at hf
  obtain ⟨p, hp, rfl⟩ := hf
  exact initColumnsInfo_vals headers p hp

/-- C1 witness: the amended theorem applied to a concrete file and
a concrete list of sampled inferred types. -/
theorem C1_witness :
    ({ name := "a", type := ColType.STRING, mode := BQMode.NULLABLE } : SchemaField).type =
      specJoinAll ColType.STRING [ColType.INTEGER] :=
  C1_final_type_join_with_initial_string ["a"] [["5"]] 100
    [{ name := "a", type := ColType.STRING, mode := BQMode.NULLABLE }] (by decide)
    { name := "a", type := ColType.STRING, mode := BQMode.NULLABLE } (by decide)
    [ColType.INTEGER]

/-! ## C2: every returned column is STRING and NULLABLE -/

/-- C2: every schema the function returns assigns type `STRING` and mode
`NULLABLE` to every column: columns start at `STRING` and neither update
branch can fire from that state. -/
theorem C2_all_columns_string_nullable (headers : List String)
    (rows : List (List String)) (n : ℕ) (schema : List SchemaField)
    (h : get_table_schema_from_csv headers rows n = some schema) :
    ∀ f ∈ schema, f.type = ColType.STRING ∧ f.mode = BQMode.NULLABLE := by
  have he := schema_eq_init headers rows n schema h
  subst he
  intro f hf
  rw [List.mem_map] at hf
  obtain ⟨p, hp, rfl⟩ := hf
  exact ⟨initColumnsInfo_vals headers p hp, rfl⟩

/-- C2 witness: the theorem applied to a concrete two-row file with
numeric and textual values and to its one schema field. -/
theorem C2_witness :
    ({ name := "valor", type := ColType.STRING,
       mode := BQMode.NULLABLE } : SchemaField).type = ColType.STRING ∧
    ({ name := "valor", type := ColType.STRING,
       mode := BQMode.NULLABLE } : SchemaField).mode = BQMode.NULLABLE :=
  C2_all_columns_string_nullable ["Valor"] [["10.5"], ["x"]] 100
    [{ name := "valor", type := ColType.STRING, mode := BQMode.NULLABLE }] (by decide)
    { name := "valor", type := ColType.STRING, mode := BQMode.NULLABLE } (by decide)

/-! ## C9: the sampling limit -/

/-- C9: the inferred schema depends only on the first
`num_rows_for_inference` rows — replacing the row list by its
`num_rows_for_inference`-prefix changes nothing — and the sampled prefix
never exceeds the limit. -/
theorem C9_sample_limit (headers : List String) (rows : List (List String)) (n : ℕ) :
    get_table_schema_from_csv headers rows n =
      get_table_schema_from_csv headers (rows.take n) n ∧
    (rows.take n).length ≤ n := by
  constructor
  · rw [get_table_schema_from_csv, get_table_schema_from_csv, List.take_take,
      min_self]
  · rw [List.length_take]
    exact min_le_left _ _

/-! ## C10: identifier uniqueness and first-seen order -/

/-- C10: the returned schema has exactly one column per distinct
sanitized identifier, in first-seen order, with no duplicates:
re-assigning an existing dict key keeps its position. -/
theorem C10_identifiers_unique_first_seen (headers : List String)
    (rows : List (List String)) (n : ℕ) (schema : List SchemaField)
    (h : get_table_schema_from_csv headers rows n = some schema) :
    schema.map SchemaField.name = firstSeenKeys (headers.map sanitize) ∧
    (schema.map SchemaField.name).Nodup := by
  have he := schema_eq_init headers rows n schema h
  subst he
  rw [List.map_map]
  have hcomp : (SchemaField.name ∘ fun p : String × ColType =>
      ({ name := p.1, type := p.2, mode := BQMode.NULLABLE } : SchemaField)) =
      Prod.fst := by
    funext p
    rfl
  rw [hcomp, initColumnsInfo_keys]
  exact ⟨rfl, initColumnsInfo_keys headers ▸ initColumnsInfo_nodup headers⟩

/-- C10 witness: two raw headers normalizing to the same identifier
collapse into one column. -/
theorem C10_witness :
    [({ name := "a_b", type := ColType.STRING,
        mode := BQMode.NULLABLE } : SchemaField)].map SchemaField.name =
      firstSeenKeys (["A b", "a_b"].map sanitize) ∧
    ([({ name := "a_b", type := ColType.STRING,
         mode := BQMode.NULLABLE } : SchemaField)].map SchemaField.name).Nodup :=
  C10_identifiers_unique_first_seen ["A b", "a_b"] [["1", "x"]] 100
    [{ name := "a_b", type := ColType.STRING, mode := BQMode.NULLABLE }] (by decide)

/-! ## C3: the filename split -/

/-- C3 counterexample: with two marker occurrences in the base name, the
code's `parts[1]` is only the segment between the first and second
occurrence (`"y"`), not the entire suffix after the first occurrence
(`"y_DadosAbertos_z"`) that the claim specifies. -/
theorem C3_counterexample :
    resolve_naming "x_DadosAbertos_y_DadosAbertos_z" =
      NamingOutcome.resolved "x" "y" ∧
    resolveIdentity_spec "x_DadosAbertos_y_DadosAbertos_z" =
      NamingOutcome.resolved "x" "y_DadosAbertos_z" ∧
    ("y" : String) ≠ "y_DadosAbertos_z" := by
  refine ⟨by decide, by decide, by decide⟩

/-- C3 (amended): `split` cuts at EVERY marker occurrence and the code
takes element 1, the segment between the first and second occurrences;
this agrees with the specified first-occurrence split exactly when the
marker occurs once (split length 2). -/
theorem C3_first_split_agreement (base_name : String)
    (h : (py_split base_name marker).length = 2) :
    resolve_naming base_name = resolveIdentity_spec base_name := by
  obtain ⟨a, b, hab⟩ := List.length_eq_two.mp h
  rw [resolve_naming, resolveIdentity_spec, hab]
  simp [joinWith]

/-- C3 witness: the amended theorem at a single-marker filename. -/
theorem C3_witness :
    resolve_naming "Chamados_DadosAbertos_2023" =
      resolveIdentity_spec "Chamados_DadosAbertos_2023" :=
  C3_first_split_agreement "Chamados_DadosAbertos_2023" (by decide)

/-! ## C4: totality of `infer_column_type` -/

/-- C4 counterexample: on `'inf'`, `'Infinity'` and `'1e400'` the code
raises `OverflowError` from `int(float(value))` — the handler catches
only `ValueError` — so `infer_column_type` is NOT total on all string
inputs and these values do not reach any fallback. -/
theorem C4_counterexample :
    infer_column_type (PyVal.pystr "inf") = Except.error PyErr.overflowError ∧
    infer_column_type (PyVal.pystr "Infinity") = Except.error PyErr.overflowError ∧
    infer_column_type (PyVal.pystr "1e400") = Except.error PyErr.overflowError := by
  refine ⟨by decide, by decide, by decide⟩

/-- C4 (amended): on every input except the strings whose float parse
yields an infinity, `infer_column_type` returns one of the four type
names without raising; in particular a failed numeric parse
(`ValueError`) is the normal path to the `STRING` fallback. -/
theorem C4_total_off_infinities (v : PyVal) (h : parsesToInfinity v = false) :
    (∃ t, infer_column_type v = Except.ok t) ∧
    (∀ s, v = PyVal.pystr s → pyFloatOfString s = Option.none →
      infer_column_type v = Except.ok ColType.STRING) := by
  constructor
  · cases v with
    | pynone => exact ⟨ColType.STRING, rfl⟩
    | pybool b => exact ⟨ColType.BOOLEAN, rfl⟩
    | pystr s =>
      rw [infer_column_type]
      by_cases hs : s = ""
      · rw [if_pos hs]
        exact ⟨ColType.STRING, rfl⟩
      · rw [if_neg hs]
        simp only [parsesToInfinity] at h
        cases hp : pyFloatOfString s with
        | none => exact ⟨ColType.STRING, rfl⟩
        | some pf =>
          rw [hp] at h
          cases pf with
          | finite neg sig exp =>
            cases hb : decIntegral sig exp
            · exact ⟨ColType.FLOAT, by simp [hb]⟩
            · exact ⟨ColType.INTEGER, by simp [hb]⟩
          | inf => simp at h
          | neginf => simp at h
          | nan => exact ⟨ColType.FLOAT, rfl⟩
  · intro s hv hp
    subst hv
    rw [infer_column_type]
    by_cases hs : s = ""
    · rw [if_pos hs]
    · rw [if_neg hs, hp]

/-- C4 witness: the amended theorem at the unparsable string `"abc"`,
which lands on the `STRING` fallback. -/
theorem C4_witness :
    (∃ t, infer_column_type (PyVal.pystr "abc") = Except.ok t) ∧
    (∀ s, PyVal.pystr "abc" = PyVal.pystr s → pyFloatOfString s = Option.none →
      infer_column_type (PyVal.pystr "abc") = Except.ok ColType.STRING) :=
  C4_total_off_infinities (PyVal.pystr "abc") (by decide)

/-! ## C5: `ensure_bigquery_table_exists` error behaviour -/

/-- C5 counterexample: when the probe raises `NotFound` and the create
call itself fails, the function does NOT return `False`: the exception
raised inside the `except NotFound` handler is not caught by the sibling
`except Exception` clause and propagates. -/
theorem C5_counterexample :
    ensure_bigquery_table_exists ProbeOutcome.notFound CreateOutcome.raises =
      Except.error () ∧
    (Except.error () : Except Unit Bool) ≠ Except.ok true ∧
    (Except.error () : Except Unit Bool) ≠ Except.ok false := by
  refine ⟨rfl, by decide, by decide⟩

/-- C5 (amended): the function returns `True` exactly when the table was
found or was just created, returns `False` exactly when the probe failed
with a non-`NotFound` error, and lets the exception propagate exactly
when creation itself fails after a `NotFound` probe (the caller's
catch-all at lines 217-218 then ends that file's processing). -/
theorem C5_outcome_characterization (p : ProbeOutcome) (c : CreateOutcome) :
    (ensure_bigquery_table_exists p c = Except.ok true ↔
      p = ProbeOutcome.found ∨ (p = ProbeOutcome.notFound ∧ c = CreateOutcome.ok)) ∧
    (ensure_bigquery_table_exists p c = Except.ok false ↔
      p = ProbeOutcome.raisesOther) ∧
    (ensure_bigquery_table_exists p c = Except.error () ↔
      p = ProbeOutcome.notFound ∧ c = CreateOutcome.raises) := by
  cases p <;> cases c <;> decide

/-! ## C6: step order and short-circuiting of the orchestrator -/

/-- C6: for every file, the milestones reached form a prefix of the
fixed order naming → dataset → schema → table → staging → load, the run
reaches `loaded` exactly when every milestone was passed (any earlier
terminal report means no later step ran), and the function is total — in
the model every exception from a step is consumed by the orchestrator's
catch-all, so nothing escapes to the caller. -/
theorem C6_step_order (f : FileInput) :
    (process_and_upload_csv_data f).1 <+: stepOrder ∧
    ((process_and_upload_csv_data f).2 = Report.loaded ↔
      (process_and_upload_csv_data f).1 = stepOrder) := by
  rw [process_and_upload_csv_data]
  repeat' split
  all_goals exact ⟨⟨_, rfl⟩, by decide⟩

/-! ## C8: the directory run never aborts -/

/-- The directory fold visits every regular file and counts it, whatever
each file's outcome, relative to any accumulator. -/
lemma process_directory_foldl (entries : List DirEntry)
    (acc : List (String × Report) × ℕ) :
    entries.foldl
      (fun acc e =>
        if e.is_file then
          (acc.1 ++ [(e.name, (process_and_upload_csv_data e.file).2)], acc.2 + 1)
        else acc) acc =
    (acc.1 ++ (entries.filter (fun e => e.is_file)).map
        (fun e => (e.name, (process_and_upload_csv_data e.file).2)),
      acc.2 + (entries.filter (fun e => e.is_file)).length) := by
  induction entries generalizing acc with
  | nil => simp
  | cons e es ih =>
    rw [List.foldl_cons]
    cases hf : e.is_file
    · rw [if_neg (by simp [hf]), ih]
      simp [List.filter_cons, hf]
    · rw [if_pos (by simp [hf]), ih]
      rw [Prod.mk.injEq]
      constructor
      · simp [List.filter_cons, hf]
      · simp [List.filter_cons, hf]
        omega

/-- C8: a valid directory run processes every regular file in listing
order — one report per regular file, independent of any file's outcome,
so no per-file failure aborts the run — and the final count is the
number of files attempted. -/
theorem C8_no_file_aborts_run (entries : List DirEntry) :
    process_directory true entries =
      some ((entries.filter (fun e => e.is_file)).map
          (fun e => (e.name, (process_and_upload_csv_data e.file).2)),
        (entries.filter (fun e => e.is_file)).length) := by
  rw [process_directory, if_neg (by simp), process_directory_foldl]
  simp

end UploadGcp
